import Mathlib

/-!
Shallow embedding of the KpopDuelBE match lifecycle manager
(`src/gameManager.ts` together with its type declarations in `types.ts`).

Modelling conventions:
- JS `number` timestamps (milliseconds) are `Int`; durations in seconds and
  the intermediate scoring arithmetic (which divides by 1000) are `ℚ`;
  `Math.round` is Mathlib's `round` (both round half toward +infinity).
- JS objects / `Map`s used as dictionaries are association lists with
  JS semantics: setting an existing key updates it in place, a new key is
  appended at the end (insertion order).
- `uuidv4()` is modelled by a fresh-counter `nextMatchId` held in the
  manager state: generated identifiers are `Nat` and assumed never to
  collide, which the counter makes exact.
- `Math.random`-driven shuffling in `generateRounds` is modelled by an
  explicit oracle argument `shuffled : List Round` supplied by the caller
  of each enqueue step (the source shuffles a copy of `songDatabase`).
- `Date.now()` is an explicit `now : Int` argument on the operations that
  read the clock (`startMatch`, `submitGuess`, `cleanupFinishedMatches`).
- Out-of-range list indexing (which would throw in JS) is totalised with a
  default `Round`; all claims operate in states where the index is in
  range (`1 ≤ currentRound ≤ rounds.length` while playing).
- `match.scores[playerId] += points` on an absent key would produce `NaN`
  in JS; the embedding totalises the absent case with 0 and the scoring
  claims carry the hypothesis that the submitting player is one of the two
  match players (whose scores are always initialised).
-/

namespace KpopDuel

/- Batteries marks the `Rat` arithmetic operations `@[irreducible]`, which
blocks `decide` from evaluating concrete scoring computations; restore
reducibility locally so concrete match traces reduce. -/
set_option allowUnsafeReducibility true

attribute [local semireducible] Rat.add Rat.mul Rat.sub Rat.inv

/-- Association-list lookup with JS-object semantics (first binding wins;
lists built by `setKV` never contain duplicate keys). -/
def lookupKV {κ α : Type} [DecidableEq κ] : List (κ × α) → κ → Option α
  | [], _ => none
  | p :: rest, k => if p.1 = k then some p.2 else lookupKV rest k

/-- Association-list update with JS-object semantics: an existing key is
updated in place, a new key is appended at the end. -/
def setKV {κ α : Type} [DecidableEq κ] : List (κ × α) → κ → α → List (κ × α)
  | [], k, v => [(k, v)]
  | p :: rest, k, v => if p.1 = k then (k, v) :: rest else p :: setKV rest k v

/-- `types.ts` `Player`. -/
structure Player where
  id : String
  name : String
  socketId : String
  photo : Option String := none
deriving DecidableEq, Repr

/-- `types.ts` `Round`. -/
structure Round where
  snippetURL : String
  options : List String
  correctAnswer : String
deriving DecidableEq, Repr

/-- The three values of `Match.state` in `types.ts`. -/
inductive MatchState where
  | waiting
  | playing
  | finished
deriving DecidableEq, Repr

/-- `types.ts` `Match`.  `roundStartTime?: number` is an explicit option;
match identifiers are the fresh-counter naturals described above. -/
structure Match where
  id : Nat
  player1Id : String
  player2Id : String
  currentRound : Nat
  rounds : List Round
  scores : List (String × Int)
  state : MatchState
  roundStartTime : Option Int := none
  playerAnswers : List (String × String)
  roundTimeLimit : ℚ
deriving DecidableEq, Repr

/-- `types.ts` `PlayerGuess`. -/
structure PlayerGuess where
  roundNumber : Nat
  guess : String
  timestamp : Int
deriving DecidableEq, Repr

/-- `types.ts` `RoundResult`. -/
structure RoundResult where
  correctAnswer : String
  scores : List (String × Int)
  playerAnswers : List (String × String)
  roundNumber : Nat
deriving DecidableEq, Repr

/-- `types.ts` `GameResult`. -/
structure GameResult where
  finalScores : List (String × Int)
  winner : String
  matchId : Nat
deriving DecidableEq, Repr

/-- The hard-coded sample content pool `GameManager.songDatabase`. -/
def songDatabase : List Round :=
  [ { snippetURL := "https://example.com/audio/dynamite.mp3",
      options := ["Dynamite", "Butter", "Permission to Dance", "Life Goes On"],
      correctAnswer := "Dynamite" },
    { snippetURL := "https://example.com/audio/gangnam-style.mp3",
      options := ["Gangnam Style", "Gentleman", "Daddy", "New Face"],
      correctAnswer := "Gangnam Style" },
    { snippetURL := "https://example.com/audio/how-you-like-that.mp3",
      options := ["How You Like That", "Kill This Love", "DDU-DU DDU-DU", "Lovesick Girls"],
      correctAnswer := "How You Like That" },
    { snippetURL := "https://example.com/audio/next-level.mp3",
      options := ["Next Level", "Savage", "Black Mamba", "My World"],
      correctAnswer := "Next Level" },
    { snippetURL := "https://example.com/audio/god-menu.mp3",
      options := ["God\x27s Menu", "Back Door", "Thunderous", "MANIAC"],
      correctAnswer := "God\x27s Menu" },
    { snippetURL := "https://example.com/audio/fancy.mp3",
      options := ["Fancy", "Feel Special", "More & More", "I Can\x27t Stop Me"],
      correctAnswer := "Fancy" },
    { snippetURL := "https://example.com/audio/love-scenario.mp3",
      options := ["Love Scenario", "Killing Me", "Goodbye Road", "Why Why Why"],
      correctAnswer := "Love Scenario" },
    { snippetURL := "https://example.com/audio/spring-day.mp3",
      options := ["Spring Day", "Blood Sweat & Tears", "Fire", "Save ME"],
      correctAnswer := "Spring Day" } ]

/-- Placeholder used to totalise the out-of-range indexing that would throw
in JS; never reached in the states the claims are about. -/
def defaultRound : Round :=
  { snippetURL := "", options := [], correctAnswer := "" }

/-- The mutable state of the `GameManager` class: `matches`,
`waitingPlayers`, `playerMatches`, plus the fresh-identifier counter
standing in for `uuidv4()`. -/
structure GameManager where
  matchesMap : List (Nat × Match)
  waitingPlayers : List Player
  playerMatches : List (String × Nat)
  nextMatchId : Nat
deriving DecidableEq, Repr

/-- The freshly constructed manager (`new GameManager()`). -/
def gmInit : GameManager :=
  { matchesMap := [], waitingPlayers := [], playerMatches := [], nextMatchId := 0 }

/-- `GameManager.generateRounds` with the random shuffle made an explicit
oracle: the source sorts a copy of `songDatabase` by a random comparator
and takes the first `min count length` entries. -/
def generateRounds (shuffled : List Round) (count : Nat) : List Round :=
  shuffled.take (min count shuffled.length)

/-- The `Match` literal built inside `GameManager.createMatch`: a fresh
`waiting` match with 5 rounds, 15-second round time limit and zero
scores. -/
def mkMatch (shuffled : List Round) (matchId : Nat) (player1 player2 : Player) : Match :=
  { id := matchId
    player1Id := player1.id
    player2Id := player2.id
    currentRound := 0
    rounds := generateRounds shuffled 5
    scores := setKV (setKV [] player1.id 0) player2.id 0
    state := .waiting
    playerAnswers := []
    roundTimeLimit := 15 }

/-- `GameManager.createMatch`: shifts the two longest-waiting players,
builds `mkMatch` under a fresh identifier, and registers both player
mappings.  The source's non-null assertions on `shift()` require at least
two waiters; the impossible branch is totalised by returning the state
unchanged. -/
def createMatch (shuffled : List Round) (gm : GameManager) : Nat × GameManager :=
  match gm.waitingPlayers with
  | player1 :: player2 :: rest =>
    let matchId := gm.nextMatchId
    let m := mkMatch shuffled matchId player1 player2
    (matchId,
      { gm with
          waitingPlayers := rest
          matchesMap := setKV gm.matchesMap matchId m
          playerMatches := setKV (setKV gm.playerMatches player1.id matchId) player2.id matchId
          nextMatchId := gm.nextMatchId + 1 })
  | _ => (gm.nextMatchId, gm)

/-- `GameManager.addPlayerToQueue`: rejects a player present in
`playerMatches`, otherwise removes any stale waiting entry with the same
id, appends the player, and pairs the two longest waiters as soon as the
list has at least two entries. -/
def addPlayerToQueue (player : Player) (shuffled : List Round) (gm : GameManager) :
    Option Nat × GameManager :=
  if (lookupKV gm.playerMatches player.id).isSome then
    (none, gm)
  else
    let gm' := { gm with
      waitingPlayers := gm.waitingPlayers.filter (fun p => p.id != player.id) ++ [player] }
    if 2 ≤ gm'.waitingPlayers.length then
      let r := createMatch shuffled gm'
      (some r.1, r.2)
    else
      (none, gm')

/-- `GameManager.startMatch`: returns `none` on an unknown identifier and
otherwise unconditionally sets state `playing`, `currentRound = 1` and the
round-start anchor to `now` — with no guard on the current state. -/
def startMatch (matchId : Nat) (now : Int) (gm : GameManager) :
    Option Match × GameManager :=
  match lookupKV gm.matchesMap matchId with
  | none => (none, gm)
  | some m =>
    let m' := { m with state := .playing, currentRound := 1, roundStartTime := some now }
    (some m', { gm with matchesMap := setKV gm.matchesMap matchId m' })

/-- `GameManager.isRoundTimeUp`.  The source tests `!match.roundStartTime`,
which is also true for the (falsy) anchor value `0`. -/
def isRoundTimeUp (m : Match) (now : Int) : Bool :=
  match m.roundStartTime with
  | none => false
  | some t =>
    if t = 0 then false
    else decide (m.roundTimeLimit ≤ ((now : ℚ) - (t : ℚ)) / 1000)

/-- The inline scoring arithmetic of `GameManager.submitGuess` (lines
140-142): elapsed seconds are *not* clamped at zero, only the speed bonus
is. -/
def computePoints (timestamp : Int) (roundStart : Int) (timeLimit : ℚ) : Int :=
  let timeElapsed : ℚ := ((timestamp : ℚ) - (roundStart : ℚ)) / 1000
  let speedBonus : ℚ := max 0 (timeLimit - timeElapsed)
  round (100 + speedBonus * 10)

/-- `GameManager.finishRound`: snapshots the round result, clears the
pending answers, and either finishes the match (last round) or increments
`currentRound` and clears the anchor. -/
def finishRound (m : Match) : RoundResult × Match :=
  let currentRound := m.rounds.getD (m.currentRound - 1) defaultRound
  let result : RoundResult :=
    { correctAnswer := currentRound.correctAnswer
      scores := m.scores
      playerAnswers := m.playerAnswers
      roundNumber := m.currentRound }
  let m' := { m with playerAnswers := [] }
  let m'' :=
    if m'.rounds.length ≤ m'.currentRound then
      { m' with state := .finished }
    else
      { m' with currentRound := m'.currentRound + 1, roundStartTime := none }
  (result, m'')

/-- Line 134 of `GameManager.submitGuess`: store the player's answer,
overwriting any prior answer from the same player (last write wins). -/
def recordAnswer (playerId : String) (answer : String) (m : Match) : Match :=
  { m with playerAnswers := setKV m.playerAnswers playerId answer }

/-- Lines 136-145 of `GameManager.submitGuess`: if the answer equals the
current round's correct answer, add the speed-scored points to the
player's score, otherwise change nothing. -/
def applyScore (playerId : String) (guess : PlayerGuess) (m : Match) : Match :=
  let currentRound := m.rounds.getD (m.currentRound - 1) defaultRound
  if guess.guess = currentRound.correctAnswer then
    let points := computePoints guess.timestamp (m.roundStartTime.getD 0) m.roundTimeLimit
    let newScores := setKV m.scores playerId ((lookupKV m.scores playerId).getD 0 + points)
    { m with scores := newScores }
  else m

/-- Lines 147-149 of `GameManager.submitGuess`: both players have a
pending answer. -/
def allAnswered (m : Match) : Prop :=
  (lookupKV m.playerAnswers m.player1Id).isSome ∧
  (lookupKV m.playerAnswers m.player2Id).isSome

instance (m : Match) : Decidable (allAnswered m) := by
  unfold allAnswered
  infer_instance

/-- `GameManager.submitGuess`: guards on existence, `playing` state and an
exact round-number match; records the answer (last write wins); adds
speed-scored points on a correct answer; resolves the round when both
players have answered or the clock has run out. -/
def submitGuess (matchId : Nat) (playerId : String) (guess : PlayerGuess) (now : Int)
    (gm : GameManager) : Option RoundResult × GameManager :=
  match lookupKV gm.matchesMap matchId with
  | none => (none, gm)
  | some m =>
    if m.state ≠ .playing ∨ guess.roundNumber ≠ m.currentRound then
      (none, gm)
    else
      let m2 := applyScore playerId guess (recordAnswer playerId guess.guess m)
      if allAnswered m2 ∨ isRoundTimeUp m2 now then
        let r := finishRound m2
        (some r.1, { gm with matchesMap := setKV gm.matchesMap matchId r.2 })
      else
        (none, { gm with matchesMap := setKV gm.matchesMap matchId m2 })

/-- `GameManager.removePlayer` (the forfeit path): drops the player from
the waiting list; if the player is mapped, force-finishes a non-finished
match and deletes only this player's mapping. -/
def removePlayer (playerId : String) (gm : GameManager) : GameManager :=
  let gm1 := { gm with
    waitingPlayers := gm.waitingPlayers.filter (fun p => p.id != playerId) }
  match lookupKV gm1.playerMatches playerId with
  | none => gm1
  | some matchId =>
    let gm2 :=
      match lookupKV gm1.matchesMap matchId with
      | some m =>
        if m.state ≠ .finished then
          { gm1 with matchesMap := setKV gm1.matchesMap matchId { m with state := .finished } }
        else gm1
      | none => gm1
    { gm2 with playerMatches := gm2.playerMatches.filter (fun q => q.1 != playerId) }

/-- Deletion predicate of `GameManager.cleanupFinishedMatches`: finished
and last anchor (defaulted to 0 by `|| 0`) strictly older than one hour
before `now`. -/
def expired (now : Int) (m : Match) : Bool :=
  m.state = .finished ∧ m.roundStartTime.getD 0 < now - 3600000

/-- `GameManager.cleanupFinishedMatches`: deletes every expired match and
both of its players' mappings (whatever match those mappings currently
point at).  Deleting entries of a JS `Map` while iterating it visits every
entry exactly once, so the loop is a filter plus the accumulated
`playerMatches` deletions. -/
def cleanupFinishedMatches (now : Int) (gm : GameManager) : GameManager :=
  let deletedPlayers :=
    (gm.matchesMap.filter (fun p => expired now p.2)).flatMap
      (fun p => [p.2.player1Id, p.2.player2Id])
  { gm with
      matchesMap := gm.matchesMap.filter (fun p => !expired now p.2)
      playerMatches := gm.playerMatches.filter (fun q => !deletedPlayers.contains q.1) }

/-- The core operations a caller can invoke, with the clock and shuffle
oracles made explicit.  `submit` covers both genuine answers and the
synthetic forced-timeout submission; `forfeit` is `removePlayer`; `sweep`
is `cleanupFinishedMatches`. -/
inductive Op where
  | enqueue (player : Player) (shuffled : List Round)
  | start (matchId : Nat) (now : Int)
  | submit (matchId : Nat) (playerId : String) (guess : PlayerGuess) (now : Int)
  | forfeit (playerId : String)
  | sweep (now : Int)

/-- State transformer of one core operation (returned values dropped). -/
def applyOp : Op → GameManager → GameManager
  | .enqueue p sh, gm => (addPlayerToQueue p sh gm).2
  | .start mid now, gm => (startMatch mid now gm).2
  | .submit mid pid g now, gm => (submitGuess mid pid g now gm).2
  | .forfeit pid, gm => removePlayer pid gm
  | .sweep now, gm => cleanupFinishedMatches now gm

/-- Run a sequence of core operations left to right. -/
def applyOps (ops : List Op) (gm : GameManager) : GameManager :=
  ops.foldl (fun g op => applyOp op g) gm

/-- Caller discipline from the specification: `startNextRound` is only
invoked on a match that is still `waiting` (or unknown); every other
operation is unrestricted. -/
def goodOp (gm : GameManager) : Op → Prop
  | .start mid _ => (lookupKV gm.matchesMap mid).elim True (fun m => m.state = .waiting)
  | _ => True

/-- A trace of operations each of which respects `goodOp` in the state it
is applied to. -/
def GoodTrace : GameManager → List Op → Prop
  | _, [] => True
  | gm, op :: rest => goodOp gm op ∧ GoodTrace (applyOp op gm) rest

/-- Numeric height of a lifecycle state along
`waiting → playing → finished`. -/
def rank : MatchState → Nat
  | .waiting => 0
  | .playing => 1
  | .finished => 2

/-- `GameManager.getGameResult`: defined only on finished matches; winner
is the strictly higher scorer, `"tie"` otherwise. -/
def getGameResult (matchId : Nat) (gm : GameManager) : Option GameResult :=
  match lookupKV gm.matchesMap matchId with
  | none => none
  | some m =>
    if m.state ≠ .finished then none
    else
      let player1Score := (lookupKV m.scores m.player1Id).getD 0
      let player2Score := (lookupKV m.scores m.player2Id).getD 0
      let winner :=
        if player1Score > player2Score then m.player1Id
        else if player2Score > player1Score then m.player2Id
        else "tie"
      some { finalScores := m.scores, winner := winner, matchId := matchId }

/-! ### Association-list lemmas -/

theorem lookupKV_setKV_self {κ α : Type} [DecidableEq κ] (l : List (κ × α)) (k : κ) (v : α) :
    lookupKV (setKV l k v) k = some v := by
  induction l with
  | nil => simp [setKV, lookupKV]
  | cons p rest ih =>
    by_cases h : p.1 = k
    · simp [setKV, h, lookupKV]
    · simp [setKV, h, lookupKV, ih]

theorem lookupKV_setKV_ne {κ α : Type} [DecidableEq κ] (l : List (κ × α)) (k k' : κ) (v : α)
    (h : k' ≠ k) : lookupKV (setKV l k v) k' = lookupKV l k' := by
  induction l with
  | nil => simp [setKV, lookupKV, (Ne.symm h : k ≠ k')]
  | cons p rest ih =>
    by_cases hp : p.1 = k
    · subst hp
      simp [setKV, lookupKV, (Ne.symm h : p.1 ≠ k'), ih]
    · simp only [setKV, if_neg hp, lookupKV]
      by_cases hp' : p.1 = k'
      · simp [hp']
      · simp [hp', ih]

theorem mem_of_lookupKV_eq_some {κ α : Type} [DecidableEq κ] {l : List (κ × α)} {k : κ} {v : α}
    (h : lookupKV l k = some v) : (k, v) ∈ l := by
  induction l with
  | nil => simp [lookupKV] at h
  | cons p rest ih =>
    by_cases hp : p.1 = k
    · rw [lookupKV, if_pos hp] at h
      cases h
      cases p
      cases hp
      exact List.mem_cons_self _ _
    · rw [lookupKV, if_neg hp] at h
      exact List.mem_cons_of_mem _ (ih h)

theorem lookupKV_eq_some_of_mem {κ α : Type} [DecidableEq κ] {l : List (κ × α)} {k : κ} {v : α}
    (hn : (l.map Prod.fst).Nodup) (h : (k, v) ∈ l) : lookupKV l k = some v := by
  induction l with
  | nil => simp at h
  | cons p rest ih =>
    rw [List.map_cons, List.nodup_cons] at hn
    rcases List.mem_cons.mp h with h | h
    · subst h
      simp [lookupKV]
    · have hk : p.1 ≠ k := by
        intro he
        exact hn.1 (he ▸ (List.mem_map.mpr ⟨(k, v), h, rfl⟩))
      rw [lookupKV, if_neg hk]
      exact ih hn.2 h

theorem mem_keys_setKV {κ α : Type} [DecidableEq κ] (l : List (κ × α)) (k k' : κ) (v : α) :
    k' ∈ (setKV l k v).map Prod.fst ↔ k' ∈ l.map Prod.fst ∨ k' = k := by
  induction l with
  | nil => simp [setKV]
  | cons p rest ih =>
    by_cases hp : p.1 = k
    · subst hp
      simp only [setKV, if_pos rfl, if_true, List.map_cons, List.mem_cons]
      tauto
    · simp only [setKV, if_neg hp, List.map_cons, List.mem_cons, ih]
      tauto

theorem nodup_keys_setKV {κ α : Type} [DecidableEq κ] (l : List (κ × α)) (k : κ) (v : α)
    (hn : (l.map Prod.fst).Nodup) : ((setKV l k v).map Prod.fst).Nodup := by
  induction l with
  | nil => simp [setKV]
  | cons p rest ih =>
    rw [List.map_cons, List.nodup_cons] at hn
    by_cases hp : p.1 = k
    · subst hp
      rw [setKV, if_pos rfl, List.map_cons, List.nodup_cons]
      exact ⟨hn.1, hn.2⟩
    · rw [setKV, if_neg hp, List.map_cons, List.nodup_cons]
      refine ⟨?_, ih hn.2⟩
      rw [mem_keys_setKV]
      rintro (h | h)
      · exact hn.1 h
      · exact hp h

theorem nodup_keys_filter {κ α : Type} [DecidableEq κ] (l : List (κ × α)) (f : κ × α → Bool)
    (hn : (l.map Prod.fst).Nodup) : ((l.filter f).map Prod.fst).Nodup :=
  ((l.filter_sublist).map Prod.fst).nodup hn

theorem lookupKV_filter_none {κ α : Type} [DecidableEq κ] (l : List (κ × α)) (f : κ × α → Bool)
    (k : κ) (h : ∀ v, f (k, v) = false) : lookupKV (l.filter f) k = none := by
  induction l with
  | nil => simp [lookupKV]
  | cons p rest ih =>
    by_cases hf : f p
    · rw [List.filter_cons_of_pos hf, lookupKV]
      have hp : p.1 ≠ k := by
        intro he
        rw [show p = (k, p.2) by cases p; cases he; rfl, h p.2] at hf
        exact Bool.false_ne_true hf
      rw [if_neg hp]
      exact ih
    · rw [List.filter_cons_of_neg (by simpa using hf)]
      exact ih

/-! ### Reachability invariant and forward-only steps -/

/-- State invariant maintained by every core operation: match keys are
unique, generated identifiers are below the freshness counter, and a
`waiting` match is still at round 0. -/
structure Inv (gm : GameManager) : Prop where
  nodup : (gm.matchesMap.map Prod.fst).Nodup
  fresh : ∀ mid m, lookupKV gm.matchesMap mid = some m → mid < gm.nextMatchId
  waiting0 : ∀ mid m, lookupKV gm.matchesMap mid = some m → m.state = .waiting →
    m.currentRound = 0

/-- One step moves every persisting match forward (state rank and round
index do not decrease) and only mints identifiers at or above the old
freshness counter. -/
def stepOK (g g' : GameManager) : Prop :=
  g.nextMatchId ≤ g'.nextMatchId ∧
  ∀ mid m', lookupKV g'.matchesMap mid = some m' →
    (∃ m, lookupKV g.matchesMap mid = some m ∧
      rank m.state ≤ rank m'.state ∧ m.currentRound ≤ m'.currentRound) ∨
    g.nextMatchId ≤ mid

theorem stepOK_of_eq {g g' : GameManager} (h : g' = g) : stepOK g g' := by
  subst h
  exact ⟨le_refl _, fun mid m' hm' => Or.inl ⟨m', hm', le_refl _, le_refl _⟩⟩

theorem stepOK_trans {g g' g'' : GameManager} (h1 : stepOK g g') (h2 : stepOK g' g'') :
    stepOK g g'' := by
  refine ⟨le_trans h1.1 h2.1, fun mid m'' hm'' => ?_⟩
  rcases h2.2 mid m'' hm'' with ⟨m', hm', hr', hc'⟩ | hfresh
  · rcases h1.2 mid m' hm' with ⟨m, hm, hr, hc⟩ | hfresh
    · exact Or.inl ⟨m, hm, le_trans hr hr', le_trans hc hc'⟩
    · exact Or.inr hfresh
  · exact Or.inr (le_trans h1.1 hfresh)

theorem stepOK_of_set {gm gm' : GameManager} {mid : Nat} {m M : Match}
    (hl : lookupKV gm.matchesMap mid = some m)
    (hm : gm'.matchesMap = setKV gm.matchesMap mid M)
    (hn : gm.nextMatchId ≤ gm'.nextMatchId)
    (h1 : rank m.state ≤ rank M.state) (h2 : m.currentRound ≤ M.currentRound) :
    stepOK gm gm' := by
  refine ⟨hn, fun mid' m' hm' => ?_⟩
  by_cases h : mid' = mid
  · subst h
    rw [hm, lookupKV_setKV_self] at hm'
    cases hm'
    exact Or.inl ⟨m, hl, h1, h2⟩
  · rw [hm, lookupKV_setKV_ne _ _ _ _ h] at hm'
    exact Or.inl ⟨m', hm', le_refl _, le_refl _⟩

theorem inv_of_set {gm gm' : GameManager} {mid : Nat} {m M : Match} (hi : Inv gm)
    (hl : lookupKV gm.matchesMap mid = some m)
    (hm : gm'.matchesMap = setKV gm.matchesMap mid M)
    (hn : gm'.nextMatchId = gm.nextMatchId)
    (hw : M.state = .waiting → M.currentRound = 0) : Inv gm' := by
  refine ⟨hm ▸ nodup_keys_setKV _ _ _ hi.nodup, fun mid' m' hm' => ?_, fun mid' m' hm' => ?_⟩
  · rw [hm] at hm'
    rw [hn]
    by_cases h : mid' = mid
    · subst h
      exact hi.fresh mid' m hl
    · rw [lookupKV_setKV_ne _ _ _ _ h] at hm'
      exact hi.fresh mid' m' hm'
  · rw [hm] at hm'
    by_cases h : mid' = mid
    · subst h
      rw [lookupKV_setKV_self] at hm'
      cases hm'
      exact hw
    · rw [lookupKV_setKV_ne _ _ _ _ h] at hm'
      exact hi.waiting0 mid' m' hm'

theorem inv_gmInit : Inv gmInit := by
  refine ⟨by simp [gmInit], fun mid m hm => ?_, fun mid m hm => ?_⟩ <;>
    simp [gmInit, lookupKV] at hm

theorem rank_le_two (s : MatchState) : rank s ≤ 2 := by
  cases s <;> simp [rank]

theorem stepOK_of_same {g g' : GameManager} (h1 : g'.matchesMap = g.matchesMap)
    (h2 : g'.nextMatchId = g.nextMatchId) : stepOK g g' := by
  refine ⟨h2.ge, fun mid m' hm' => ?_⟩
  rw [h1] at hm'
  exact Or.inl ⟨m', hm', le_refl _, le_refl _⟩

theorem inv_of_same {g g' : GameManager} (hi : Inv g) (h1 : g'.matchesMap = g.matchesMap)
    (h2 : g'.nextMatchId = g.nextMatchId) : Inv g' := by
  refine ⟨?_, fun mid m hm => ?_, fun mid m hm => ?_⟩
  · rw [h1]
    exact hi.nodup
  · rw [h1] at hm
    rw [h2]
    exact hi.fresh mid m hm
  · rw [h1] at hm
    exact hi.waiting0 mid m hm

/-! ### Projection facts about the match-mutating helpers -/

theorem applyScore_eq_scores (playerId : String) (guess : PlayerGuess) (m : Match) :
    applyScore playerId guess m = { m with scores := (applyScore playerId guess m).scores } := by
  unfold applyScore
  dsimp only
  split <;> rfl

theorem applyScore_state (playerId : String) (guess : PlayerGuess) (m : Match) :
    (applyScore playerId guess m).state = m.state := by
  unfold applyScore
  dsimp only
  split <;> rfl

theorem applyScore_currentRound (playerId : String) (guess : PlayerGuess) (m : Match) :
    (applyScore playerId guess m).currentRound = m.currentRound := by
  unfold applyScore
  dsimp only
  split <;> rfl

theorem finishRound_fst (m : Match) :
    (finishRound m).1 =
      { correctAnswer := (m.rounds.getD (m.currentRound - 1) defaultRound).correctAnswer
        scores := m.scores
        playerAnswers := m.playerAnswers
        roundNumber := m.currentRound } := rfl

theorem finishRound_snd_last (m : Match) (h : m.rounds.length ≤ m.currentRound) :
    (finishRound m).2 = { m with playerAnswers := [], state := .finished } := by
  unfold finishRound
  dsimp only
  rw [if_pos h]

theorem finishRound_snd_not_last (m : Match) (h : ¬ m.rounds.length ≤ m.currentRound) :
    (finishRound m).2 =
      { m with playerAnswers := [], currentRound := m.currentRound + 1,
               roundStartTime := none } := by
  unfold finishRound
  dsimp only
  rw [if_neg h]

theorem rank_finishRound (m : Match) : rank m.state ≤ rank (finishRound m).2.state := by
  by_cases h : m.rounds.length ≤ m.currentRound
  · rw [finishRound_snd_last m h]
    exact rank_le_two m.state
  · rw [finishRound_snd_not_last m h]

theorem currentRound_finishRound (m : Match) :
    m.currentRound ≤ (finishRound m).2.currentRound := by
  by_cases h : m.rounds.length ≤ m.currentRound
  · rw [finishRound_snd_last m h]
  · rw [finishRound_snd_not_last m h]
    exact Nat.le_succ _

theorem state_finishRound_cases (m : Match) :
    (finishRound m).2.state = .finished ∨ (finishRound m).2.state = m.state := by
  by_cases h : m.rounds.length ≤ m.currentRound
  · rw [finishRound_snd_last m h]
    exact Or.inl rfl
  · rw [finishRound_snd_not_last m h]
    exact Or.inr rfl

/-! ### Per-operation invariant preservation and forward movement -/

theorem createMatch_step (sh : List Round) (gm : GameManager) (hi : Inv gm)
    (p1 p2 : Player) (rest : List Player) (hw : gm.waitingPlayers = p1 :: p2 :: rest) :
    Inv (createMatch sh gm).2 ∧ stepOK gm (createMatch sh gm).2 := by
  unfold createMatch
  rw [hw]
  dsimp only
  constructor
  · refine ⟨nodup_keys_setKV _ _ _ hi.nodup, fun mid m hm => ?_, fun mid m hm => ?_⟩
    · dsimp only at hm ⊢
      by_cases h : mid = gm.nextMatchId
      · subst h
        exact Nat.lt_succ_self _
      · rw [lookupKV_setKV_ne _ _ _ _ h] at hm
        exact Nat.lt_succ_of_lt (hi.fresh mid m hm)
    · dsimp only at hm
      by_cases h : mid = gm.nextMatchId
      · subst h
        rw [lookupKV_setKV_self] at hm
        cases hm
        intro _
        rfl
      · rw [lookupKV_setKV_ne _ _ _ _ h] at hm
        exact hi.waiting0 mid m hm
  · refine ⟨Nat.le_succ _, fun mid m' hm' => ?_⟩
    dsimp only at hm'
    by_cases h : mid = gm.nextMatchId
    · subst h
      exact Or.inr (le_refl _)
    · rw [lookupKV_setKV_ne _ _ _ _ h] at hm'
      exact Or.inl ⟨m', hm', le_refl _, le_refl _⟩

theorem exists_cons_cons_of_two_le {α : Type} {l : List α} (h : 2 ≤ l.length) :
    ∃ a b t, l = a :: b :: t := by
  match l with
  | [] => simp at h
  | [a] => simp at h
  | a :: b :: t => exact ⟨a, b, t, rfl⟩

theorem step_enqueue (gm : GameManager) (p : Player) (sh : List Round) (hi : Inv gm) :
    Inv (addPlayerToQueue p sh gm).2 ∧ stepOK gm (addPlayerToQueue p sh gm).2 := by
  unfold addPlayerToQueue
  split
  · exact ⟨hi, stepOK_of_eq rfl⟩
  · dsimp only
    split
    · rename_i hlen
      have hlen' : 2 ≤ (gm.waitingPlayers.filter (fun q => q.id != p.id) ++ [p]).length := hlen
      obtain ⟨p1, p2, rest, hl⟩ := exists_cons_cons_of_two_le hlen'
      have h := createMatch_step sh
        { gm with waitingPlayers := gm.waitingPlayers.filter (fun q => q.id != p.id) ++ [p] }
        (inv_of_same hi rfl rfl) p1 p2 rest hl
      exact h
    · exact ⟨inv_of_same hi rfl rfl, stepOK_of_same rfl rfl⟩

theorem step_start (gm : GameManager) (mid : Nat) (now : Int) (hi : Inv gm)
    (hg : goodOp gm (.start mid now)) :
    Inv (startMatch mid now gm).2 ∧ stepOK gm (startMatch mid now gm).2 := by
  replace hg : (lookupKV gm.matchesMap mid).elim True
      (fun m => m.state = MatchState.waiting) := hg
  unfold startMatch
  cases hl : lookupKV gm.matchesMap mid with
  | none => exact ⟨hi, stepOK_of_eq rfl⟩
  | some m =>
    rw [hl] at hg
    dsimp only [Option.elim] at hg
    dsimp only
    constructor
    · exact inv_of_set hi hl rfl rfl (fun h => nomatch h)
    · refine stepOK_of_set hl rfl (le_refl _) ?_ ?_
      · rw [hg]
        exact Nat.zero_le _
      · rw [hi.waiting0 mid m hl hg]
        exact Nat.zero_le _

theorem step_submit (gm : GameManager) (mid : Nat) (pid : String) (g : PlayerGuess)
    (now : Int) (hi : Inv gm) :
    Inv (submitGuess mid pid g now gm).2 ∧ stepOK gm (submitGuess mid pid g now gm).2 := by
  unfold submitGuess
  cases hl : lookupKV gm.matchesMap mid with
  | none => exact ⟨hi, stepOK_of_eq rfl⟩
  | some m =>
    dsimp only
    split
    · exact ⟨hi, stepOK_of_eq rfl⟩
    · rename_i hguard
      rw [not_or] at hguard
      have hstate : m.state = .playing := not_not.mp hguard.1
      have hm2state : (applyScore pid g (recordAnswer pid g.guess m)).state = m.state := by
        rw [applyScore_state]
        rfl
      have hm2round :
          (applyScore pid g (recordAnswer pid g.guess m)).currentRound = m.currentRound := by
        rw [applyScore_currentRound]
        rfl
      split
      · constructor
        · refine inv_of_set hi hl rfl rfl (fun h => ?_)
          rcases state_finishRound_cases (applyScore pid g (recordAnswer pid g.guess m)) with
            hc | hc
          · rw [hc] at h
            exact nomatch h
          · rw [hc, hm2state, hstate] at h
            exact nomatch h
        · refine stepOK_of_set hl rfl (le_refl _) ?_ ?_
          · calc rank m.state
                = rank (applyScore pid g (recordAnswer pid g.guess m)).state := by rw [hm2state]
              _ ≤ _ := rank_finishRound _
          · calc m.currentRound
                = (applyScore pid g (recordAnswer pid g.guess m)).currentRound := by
                  rw [hm2round]
              _ ≤ _ := currentRound_finishRound _
      · constructor
        · refine inv_of_set hi hl rfl rfl (fun h => ?_)
          rw [hm2state, hstate] at h
          exact nomatch h
        · refine stepOK_of_set hl rfl (le_refl _) ?_ ?_
          · rw [hm2state]
          · rw [hm2round]

theorem step_forfeit (gm : GameManager) (pid : String) (hi : Inv gm) :
    Inv (removePlayer pid gm) ∧ stepOK gm (removePlayer pid gm) := by
  unfold removePlayer
  cases hpm : lookupKV gm.playerMatches pid with
  | none =>
    dsimp only
    rw [hpm]
    exact ⟨inv_of_same hi rfl rfl, stepOK_of_same rfl rfl⟩
  | some matchId =>
    dsimp only
    rw [hpm]
    dsimp only
    cases hl : lookupKV gm.matchesMap matchId with
    | none =>
      dsimp only
      exact ⟨inv_of_same hi rfl rfl, stepOK_of_same rfl rfl⟩
    | some m =>
      dsimp only
      split
      · constructor
        · refine inv_of_set hi hl rfl rfl (fun h => nomatch h)
        · exact stepOK_of_set hl rfl (le_refl _) (rank_le_two _) (le_refl _)
      · exact ⟨inv_of_same hi rfl rfl, stepOK_of_same rfl rfl⟩

theorem step_sweep (gm : GameManager) (now : Int) (hi : Inv gm) :
    Inv (cleanupFinishedMatches now gm) ∧ stepOK gm (cleanupFinishedMatches now gm) := by
  have key : ∀ mid m', lookupKV (cleanupFinishedMatches now gm).matchesMap mid = some m' →
      lookupKV gm.matchesMap mid = some m' := by
    intro mid m' hm'
    have hmem := mem_of_lookupKV_eq_some hm'
    unfold cleanupFinishedMatches at hmem
    dsimp only at hmem
    exact lookupKV_eq_some_of_mem hi.nodup (List.mem_of_mem_filter hmem)
  constructor
  · refine ⟨?_, fun mid m hm => ?_, fun mid m hm => ?_⟩
    · exact nodup_keys_filter _ _ hi.nodup
    · exact hi.fresh mid m (key mid m hm)
    · exact hi.waiting0 mid m (key mid m hm)
  · exact ⟨le_refl _, fun mid m' hm' => Or.inl ⟨m', key mid m' hm', le_refl _, le_refl _⟩⟩

/-- Any single well-disciplined operation preserves the invariant and
moves matches only forward. -/
theorem inv_step (gm : GameManager) (op : Op) (hi : Inv gm) (hg : goodOp gm op) :
    Inv (applyOp op gm) ∧ stepOK gm (applyOp op gm) := by
  cases op with
  | enqueue p sh => exact step_enqueue gm p sh hi
  | start mid now => exact step_start gm mid now hi hg
  | submit mid pid g now => exact step_submit gm mid pid g now hi
  | forfeit pid => exact step_forfeit gm pid hi
  | sweep now => exact step_sweep gm now hi

/-- A well-disciplined trace preserves the invariant and moves matches only
forward. -/
theorem inv_trace (ops : List Op) (gm : GameManager) (hi : Inv gm)
    (hg : GoodTrace gm ops) : Inv (applyOps ops gm) ∧ stepOK gm (applyOps ops gm) := by
  induction ops generalizing gm with
  | nil => exact ⟨hi, stepOK_of_eq rfl⟩
  | cons op rest ih =>
    have hstep := inv_step gm op hi hg.1
    have hrest := ih (applyOp op gm) hstep.1 hg.2
    exact ⟨hrest.1, stepOK_trans hstep.2 hrest.2⟩

theorem goodTrace_append (gm : GameManager) (ops ops' : List Op)
    (h : GoodTrace gm (ops ++ ops')) :
    GoodTrace gm ops ∧ GoodTrace (applyOps ops gm) ops' := by
  induction ops generalizing gm with
  | nil => exact ⟨trivial, h⟩
  | cons op rest ih =>
    have := ih (applyOp op gm) h.2
    exact ⟨⟨h.1, this.1⟩, this.2⟩

theorem applyOps_append (gm : GameManager) (ops ops' : List Op) :
    applyOps (ops ++ ops') gm = applyOps ops' (applyOps ops gm) :=
  List.foldl_append _ _ _ _

/-! ### Concrete fixtures used by witnesses and counterexamples -/

/-- A concrete player. -/
def pA : Player := { id := "a", name := "Alice", socketId := "sockA" }

/-- A concrete player. -/
def pB : Player := { id := "b", name := "Bob", socketId := "sockB" }

/-- Two enqueues followed by a round start at time 1000: a freshly started
match (round 1 of 5, anchor 1000). -/
def trStart : List Op :=
  [.enqueue pA songDatabase, .enqueue pB songDatabase, .start 0 1000]

/-- The manager state after `trStart`. -/
def gmStarted : GameManager := applyOps trStart gmInit

/-- `trStart` followed by player a forfeiting: the match is finished and
only player b's mapping remains. -/
def gmForfeited : GameManager := applyOps (trStart ++ [.forfeit "a"]) gmInit

/-! ### C1 -/

/-- C1 (amended): for every reachable match and every sequence of core
operations in which `startNextRound` is only invoked on matches still in
state `waiting` (or unknown), the lifecycle state only moves forward along
waiting → playing → finished and the current-round index never decreases.
(The unguarded `startMatch` makes the unrestricted claim false: invoked on
a `playing` or `finished` match it resets it to `playing` at round 1.) -/
theorem C1_monotone_lifecycle (ops ops' : List Op) (h : GoodTrace gmInit (ops ++ ops'))
    (mid : Nat) (m m' : Match)
    (hm : lookupKV (applyOps ops gmInit).matchesMap mid = some m)
    (hm' : lookupKV (applyOps (ops ++ ops') gmInit).matchesMap mid = some m') :
    rank m.state ≤ rank m'.state ∧ m.currentRound ≤ m'.currentRound := by
  obtain ⟨h1, h2⟩ := goodTrace_append gmInit ops ops' h
  have hInv := (inv_trace ops gmInit inv_gmInit h1).1
  have hstep := inv_trace ops' (applyOps ops gmInit) hInv h2
  rw [applyOps_append] at hm'
  rcases hstep.2.2 mid m' hm' with ⟨m0, hm0, hr, hc⟩ | hfresh
  · rw [hm] at hm0
    cases hm0
    exact ⟨hr, hc⟩
  · exact absurd (hInv.fresh mid m hm) (not_lt.mpr hfresh)

/-- Witness for C1: along the disciplined trace that enqueues two players
and then starts the match, the match's state rank and round index do not
decrease. -/
theorem C1_monotone_lifecycle_witness :
    rank (mkMatch songDatabase 0 pA pB).state ≤
      rank ({ mkMatch songDatabase 0 pA pB with
                state := .playing, currentRound := 1,
                roundStartTime := some 1000 } : Match).state ∧
    (mkMatch songDatabase 0 pA pB).currentRound ≤
      ({ mkMatch songDatabase 0 pA pB with
           state := .playing, currentRound := 1,
           roundStartTime := some 1000 } : Match).currentRound :=
  C1_monotone_lifecycle
    [.enqueue pA songDatabase, .enqueue pB songDatabase] [.start 0 1000]
    (by exact ⟨trivial, trivial, rfl, trivial⟩) 0
    (mkMatch songDatabase 0 pA pB)
    { mkMatch songDatabase 0 pA pB with
        state := .playing, currentRound := 1, roundStartTime := some 1000 }
    (by decide) (by decide)

/-- Counterexample to C1 as stated: over unrestricted core-operation
sequences the state does reverse.  After a forfeit finishes the match,
a further `startMatch` call moves it back from `finished` to `playing`;
and after a round resolution has moved the round index to 2, a further
`startMatch` call resets it to 1. -/
theorem C1_counterexample :
    ((lookupKV (applyOps (trStart ++ [.forfeit "a"]) gmInit).matchesMap 0).map
        Match.state = some .finished ∧
      (lookupKV (applyOps (trStart ++ [.forfeit "a", .start 0 2000]) gmInit).matchesMap 0).map
        Match.state = some .playing) ∧
    ((lookupKV (applyOps (trStart ++
          [.submit 0 "a" ⟨1, "Dynamite", 1000⟩ 1000,
           .submit 0 "b" ⟨1, "Butter", 2000⟩ 2000]) gmInit).matchesMap 0).map
        Match.currentRound = some 2 ∧
      (lookupKV (applyOps (trStart ++
          [.submit 0 "a" ⟨1, "Dynamite", 1000⟩ 1000,
           .submit 0 "b" ⟨1, "Butter", 2000⟩ 2000,
           .start 0 9000]) gmInit).matchesMap 0).map
        Match.currentRound = some 1) := by
  decide

/-! ### C2 -/

/-- C2 (amended): `startNextRound` fails (returns an absent value, with no
state change) exactly when the match identifier is unknown.  On any known
match — `waiting`, `playing` or `finished` alike — it unconditionally sets
the state to `playing`, sets current-round to 1 and sets the
round-start-anchor to "now", leaving every other match untouched.  It
never increments current-round past 1 and never rejects a `finished`
match with `InvalidTransition`. -/
theorem C2_startMatch_behaviour (gm : GameManager) (mid : Nat) (now : Int) :
    (lookupKV gm.matchesMap mid = none → startMatch mid now gm = (none, gm)) ∧
    (∀ m, lookupKV gm.matchesMap mid = some m →
      (startMatch mid now gm).1 =
        some { m with state := .playing, currentRound := 1, roundStartTime := some now } ∧
      lookupKV (startMatch mid now gm).2.matchesMap mid =
        some { m with state := .playing, currentRound := 1, roundStartTime := some now } ∧
      ∀ mid', mid' ≠ mid →
        lookupKV (startMatch mid now gm).2.matchesMap mid' =
          lookupKV gm.matchesMap mid') := by
  constructor
  · intro h
    unfold startMatch
    rw [h]
  · intro m hm
    unfold startMatch
    rw [hm]
    dsimp only
    exact ⟨rfl, lookupKV_setKV_self _ _ _, fun mid' hne => lookupKV_setKV_ne _ _ _ _ hne⟩

/-- Witness for C2: starting the freshly created match (state `waiting`)
yields the playing match at round 1 anchored at the call time. -/
theorem C2_startMatch_behaviour_witness :
    (startMatch 0 1000 (applyOps [Op.enqueue pA songDatabase, Op.enqueue pB songDatabase]
        gmInit)).1 =
      some { mkMatch songDatabase 0 pA pB with
               state := .playing, currentRound := 1, roundStartTime := some 1000 } :=
  ((C2_startMatch_behaviour
    (applyOps [Op.enqueue pA songDatabase, Op.enqueue pB songDatabase] gmInit)
    0 1000).2 (mkMatch songDatabase 0 pA pB) (by decide)).1

/-- Counterexample to C2 as stated: on a `playing` match at round 2 of 5
whose round has resolved, `startNextRound` does not increment
current-round to 3 — it resets it to 1 (and it would likewise re-open a
`finished` match instead of failing with `InvalidTransition`). -/
theorem C2_counterexample :
    (lookupKV (applyOps (trStart ++
        [.submit 0 "a" ⟨1, "Dynamite", 1000⟩ 1000,
         .submit 0 "b" ⟨1, "Butter", 2000⟩ 2000]) gmInit).matchesMap 0).map
      (fun m => (m.state, m.currentRound, m.rounds.length)) =
        some (.playing, 2, 5) ∧
    (lookupKV (startMatch 0 9000 (applyOps (trStart ++
        [.submit 0 "a" ⟨1, "Dynamite", 1000⟩ 1000,
         .submit 0 "b" ⟨1, "Butter", 2000⟩ 2000]) gmInit)).2.matchesMap 0).map
      Match.currentRound = some 1 ∧ (1 : Nat) ≠ 3 := by
  decide

/-! ### C3 -/

theorem finishRound_playerAnswers (m : Match) : (finishRound m).2.playerAnswers = [] := by
  by_cases h : m.rounds.length ≤ m.currentRound
  · rw [finishRound_snd_last m h]
  · rw [finishRound_snd_not_last m h]

theorem finishRound_scores (m : Match) : (finishRound m).2.scores = m.scores := by
  by_cases h : m.rounds.length ≤ m.currentRound
  · rw [finishRound_snd_last m h]
  · rw [finishRound_snd_not_last m h]

/-- C3 (amended): resolving a round snapshots the correct answer, the
current scores, the pending answers and the round number into the
returned `RoundResult` and clears the pending-answer map; if the resolved
round was the last round the state becomes `finished` with current-round
frozen, otherwise current-round is incremented *immediately by the
resolution itself* (not by the next `startNextRound` call) and the
round-start-anchor is cleared.  Whenever `submitAnswer` returns a result,
the stored match's pending-answer map is empty. -/
theorem C3_round_resolution :
    (∀ m : Match,
      (finishRound m).1.correctAnswer =
          (m.rounds.getD (m.currentRound - 1) defaultRound).correctAnswer ∧
      (finishRound m).1.scores = m.scores ∧
      (finishRound m).1.playerAnswers = m.playerAnswers ∧
      (finishRound m).1.roundNumber = m.currentRound ∧
      (finishRound m).2.playerAnswers = [] ∧
      (m.rounds.length ≤ m.currentRound →
        (finishRound m).2.state = .finished ∧
        (finishRound m).2.currentRound = m.currentRound) ∧
      (m.currentRound < m.rounds.length →
        (finishRound m).2.state = m.state ∧
        (finishRound m).2.currentRound = m.currentRound + 1 ∧
        (finishRound m).2.roundStartTime = none)) ∧
    (∀ gm mid pid g now res gm', submitGuess mid pid g now gm = (some res, gm') →
      ∀ m', lookupKV gm'.matchesMap mid = some m' → m'.playerAnswers = []) := by
  constructor
  · intro m
    refine ⟨rfl, rfl, rfl, rfl, finishRound_playerAnswers m, fun h => ?_, fun h => ?_⟩
    · rw [finishRound_snd_last m h]
      exact ⟨rfl, rfl⟩
    · rw [finishRound_snd_not_last m (not_le.mpr h)]
      exact ⟨rfl, rfl, rfl⟩
  · intro gm mid pid g now res gm' hsub m' hm'
    unfold submitGuess at hsub
    cases hl : lookupKV gm.matchesMap mid with
    | none =>
      rw [hl] at hsub
      exact absurd (congrArg Prod.fst hsub) (by simp)
    | some m =>
      rw [hl] at hsub
      dsimp only at hsub
      rcases Decidable.em (m.state ≠ .playing ∨ g.roundNumber ≠ m.currentRound) with
        hguard | hguard
      · rw [if_pos hguard] at hsub
        exact absurd (congrArg Prod.fst hsub) (by simp)
      · rw [if_neg hguard] at hsub
        rcases Decidable.em (allAnswered (applyScore pid g (recordAnswer pid g.guess m)) ∨
            isRoundTimeUp (applyScore pid g (recordAnswer pid g.guess m)) now = true) with
          hres | hres
        · rw [if_pos hres] at hsub
          have hmap := congrArg GameManager.matchesMap (congrArg Prod.snd hsub)
          dsimp only at hmap
          rw [← hmap, lookupKV_setKV_self] at hm'
          cases hm'
          exact finishRound_playerAnswers _
        · rw [if_neg hres] at hsub
          exact absurd (congrArg Prod.fst hsub) (by simp)

/-- The started match at its final round (round 5 of 5). -/
def mFinal : Match :=
  { mkMatch songDatabase 0 pA pB with state := .playing, currentRound := 5 }

/-- The started match at round 1, anchored at time 1000. -/
def mFirst : Match :=
  { mkMatch songDatabase 0 pA pB with
      state := .playing, currentRound := 1, roundStartTime := some 1000 }

/-- Witness for C3: resolving round 5 of 5 finishes the match with an
empty pending-answer map; resolving a non-final round increments the
round index and clears the anchor. -/
theorem C3_round_resolution_witness :
    ((finishRound mFinal).2.state = .finished ∧
      (finishRound mFinal).2.currentRound = 5) ∧
    (finishRound mFinal).2.playerAnswers = [] ∧
    (finishRound mFirst).2.currentRound = 2 ∧
    (finishRound mFirst).2.roundStartTime = none :=
  ⟨(C3_round_resolution.1 mFinal).2.2.2.2.2.1 (by decide),
   (C3_round_resolution.1 mFinal).2.2.2.2.1,
   ((C3_round_resolution.1 mFirst).2.2.2.2.2.2 (by decide)).2.1,
   ((C3_round_resolution.1 mFirst).2.2.2.2.2.2 (by decide)).2.2⟩

/-- Counterexample to C3 as stated: the round-1 resolution of a 5-round
match leaves the stored match at current-round 2, not 1 — `finishRound`
increments the index immediately rather than leaving it for the next
`startNextRound` call. -/
theorem C3_counterexample :
    (submitGuess 0 "b" ⟨1, "Butter", 2000⟩ 2000
        (applyOps (trStart ++ [.submit 0 "a" ⟨1, "Dynamite", 1000⟩ 1000]) gmInit)).1 ≠
      none ∧
    (lookupKV (submitGuess 0 "b" ⟨1, "Butter", 2000⟩ 2000
        (applyOps (trStart ++ [.submit 0 "a" ⟨1, "Dynamite", 1000⟩ 1000]) gmInit)).2.matchesMap
      0).map Match.currentRound = some 2 ∧ (2 : Nat) ≠ 1 := by
  decide

/-! ### C4 -/

theorem round_mono_rat {x y : ℚ} (h : x ≤ y) : round x ≤ round y := by
  rw [round_eq, round_eq]
  exact Int.floor_mono (by linarith)

/-- The score value written back by a correct answer: the player's old
score plus the freshly computed points. -/
def scoredValue (pid : String) (g : PlayerGuess) (m : Match) : Int :=
  (lookupKV m.scores pid).getD 0 +
    computePoints g.timestamp (m.roundStartTime.getD 0) m.roundTimeLimit

theorem applyScore_correct (pid : String) (g : PlayerGuess) (m : Match)
    (h : g.guess = (m.rounds.getD (m.currentRound - 1) defaultRound).correctAnswer) :
    applyScore pid g m = { m with scores := setKV m.scores pid (scoredValue pid g m) } := by
  unfold applyScore
  dsimp only
  rw [if_pos h]
  rfl

theorem applyScore_incorrect (pid : String) (g : PlayerGuess) (m : Match)
    (h : g.guess ≠ (m.rounds.getD (m.currentRound - 1) defaultRound).correctAnswer) :
    applyScore pid g m = m := by
  unfold applyScore
  dsimp only
  rw [if_neg h]

/-- The points formula as the specification words it, with the elapsed
time clamped at zero: `elapsed = max(0, answeredAt - roundStartAnchor)`.
The source does *not* clamp the elapsed time (only the speed bonus), so
this differs from `computePoints` when `answeredAt < roundStartAnchor`. -/
def specClampedPoints (timestamp : Int) (roundStart : Int) (timeLimit : ℚ) : Int :=
  let elapsed : ℚ := max 0 (((timestamp : ℚ) - (roundStart : ℚ)) / 1000)
  round (100 + max 0 (timeLimit - elapsed) * 10)

/-- C4 (amended): a correct answer submitted by one of the match players
adds exactly `round(100 + max(0, timeLimit - elapsed) * 10)` points where
`elapsed = (answeredAt - roundStartAnchor) / 1000` is *not* clamped at
zero; the value is monotonically non-increasing in the answer timestamp
and at least 100 always, and at most 250 provided the answer timestamp is
not before the anchor; incorrect answers contribute exactly 0 and leave
the score map unchanged.  (The spec's clamped-elapsed formula and the
unconditional 250 upper bound fail when `answeredAt < roundStartAnchor`.) -/
theorem C4_scoring :
    (∀ gm mid pid g now m s, lookupKV gm.matchesMap mid = some m →
      m.state = .playing → g.roundNumber = m.currentRound →
      g.guess = (m.rounds.getD (m.currentRound - 1) defaultRound).correctAnswer →
      lookupKV m.scores pid = some s →
      ∀ m', lookupKV (submitGuess mid pid g now gm).2.matchesMap mid = some m' →
        lookupKV m'.scores pid =
          some (s + computePoints g.timestamp (m.roundStartTime.getD 0) m.roundTimeLimit)) ∧
    (∀ gm mid pid g now m, lookupKV gm.matchesMap mid = some m →
      g.guess ≠ (m.rounds.getD (m.currentRound - 1) defaultRound).correctAnswer →
      ∀ m', lookupKV (submitGuess mid pid g now gm).2.matchesMap mid = some m' →
        m'.scores = m.scores) ∧
    (∀ (ts t0 : Int) (L : ℚ), 100 ≤ computePoints ts t0 L) ∧
    (∀ (ts t0 : Int) (L : ℚ), t0 ≤ ts → L ≤ 15 → computePoints ts t0 L ≤ 250) ∧
    (∀ (t0 : Int) (L : ℚ) (ts ts' : Int), ts ≤ ts' →
      computePoints ts' t0 L ≤ computePoints ts t0 L) := by
  refine ⟨?_, ?_, ?_, ?_, ?_⟩
  · intro gm mid pid g now m s hl hstate hrn hguess hs m' hm'
    unfold submitGuess at hm'
    rw [hl] at hm'
    dsimp only at hm'
    rw [if_neg (by simp [hstate, hrn])] at hm'
    have hguess' : g.guess = ((recordAnswer pid g.guess m).rounds.getD
        ((recordAnswer pid g.guess m).currentRound - 1) defaultRound).correctAnswer := hguess
    rw [applyScore_correct pid g _ hguess'] at hm'
    split at hm'
    · rw [lookupKV_setKV_self] at hm'
      cases hm'
      rw [finishRound_scores]
      dsimp only
      rw [lookupKV_setKV_self]
      dsimp only [scoredValue, recordAnswer]
      rw [hs]
      rfl
    · rw [lookupKV_setKV_self] at hm'
      cases hm'
      dsimp only
      rw [lookupKV_setKV_self]
      dsimp only [scoredValue, recordAnswer]
      rw [hs]
      rfl
  · intro gm mid pid g now m hl hguess m' hm'
    unfold submitGuess at hm'
    rw [hl] at hm'
    dsimp only at hm'
    split at hm'
    · rw [hl] at hm'
      cases hm'
      rfl
    · have hguess' : g.guess ≠ ((recordAnswer pid g.guess m).rounds.getD
          ((recordAnswer pid g.guess m).currentRound - 1) defaultRound).correctAnswer := hguess
      rw [applyScore_incorrect pid g _ hguess'] at hm'
      split at hm'
      · rw [lookupKV_setKV_self] at hm'
        cases hm'
        rw [finishRound_scores]
        rfl
      · rw [lookupKV_setKV_self] at hm'
        cases hm'
        rfl
  · intro ts t0 L
    unfold computePoints
    have h0 : (0 : ℚ) ≤ max 0 (L - ((ts : ℚ) - (t0 : ℚ)) / 1000) := le_max_left 0 _
    have : (100 : ℤ) = round (100 : ℚ) := by simp
    rw [this]
    exact round_mono_rat (by nlinarith)
  · intro ts t0 L hts hL
    unfold computePoints
    have he : (0 : ℚ) ≤ ((ts : ℚ) - (t0 : ℚ)) / 1000 := by
      have h1 : (t0 : ℚ) ≤ (ts : ℚ) := by exact_mod_cast hts
      have h2 : (0 : ℚ) ≤ (ts : ℚ) - (t0 : ℚ) := by linarith
      exact div_nonneg h2 (by norm_num)
    have hsb : max 0 (L - ((ts : ℚ) - (t0 : ℚ)) / 1000) ≤ 15 :=
      max_le (by norm_num) (by linarith)
    have h250 : (250 : ℤ) = round (250 : ℚ) := by simp
    rw [h250]
    refine round_mono_rat ?_
    have := le_max_left (0 : ℚ) (L - ((ts : ℚ) - (t0 : ℚ)) / 1000)
    linarith
  · intro t0 L ts ts' hts
    unfold computePoints
    have he : ((ts : ℚ) - (t0 : ℚ)) / 1000 ≤ ((ts' : ℚ) - (t0 : ℚ)) / 1000 := by
      have h1 : (ts : ℚ) ≤ (ts' : ℚ) := by exact_mod_cast hts
      have h2 : (ts : ℚ) - (t0 : ℚ) ≤ (ts' : ℚ) - (t0 : ℚ) := by linarith
      exact (div_le_div_iff_of_pos_right (by norm_num)).mpr h2
    have hsb : max 0 (L - ((ts' : ℚ) - (t0 : ℚ)) / 1000) ≤
        max 0 (L - ((ts : ℚ) - (t0 : ℚ)) / 1000) :=
      max_le_max (le_refl 0) (by linarith)
    exact round_mono_rat (by linarith)

/-- Witness for C4: in the started match, player a's correct answer at
elapsed 0 adds `computePoints 1000 1000 15 = 250` points; the bounds and
monotonicity hold at concrete inputs. -/
theorem C4_scoring_witness :
    (lookupKV (submitGuess 0 "a" ⟨1, "Dynamite", 1000⟩ 1000 gmStarted).2.matchesMap 0).map
        (fun m' => lookupKV m'.scores "a") = some (some (0 + computePoints 1000 1000 15)) ∧
    100 ≤ computePoints 1000 1000 15 ∧
    computePoints 1000 1000 15 ≤ 250 ∧
    computePoints 11000 1000 15 ≤ computePoints 1000 1000 15 := by
  have h1 := C4_scoring.1 gmStarted 0 "a" ⟨1, "Dynamite", 1000⟩ 1000 mFirst 0
    (by decide) (by decide) (by decide) (by decide) (by decide)
  refine ⟨?_, C4_scoring.2.2.1 1000 1000 15,
    C4_scoring.2.2.2.1 1000 1000 15 (by decide) (by norm_num),
    C4_scoring.2.2.2.2 1000 15 1000 11000 (by decide)⟩
  cases hx : lookupKV (submitGuess 0 "a" ⟨1, "Dynamite", 1000⟩ 1000 gmStarted).2.matchesMap 0 with
  | none => exact absurd hx (by decide)
  | some m' => exact congrArg some (h1 m' hx)

/-- Counterexample to C4 as stated: an answer timestamped 1000 ms before
the round anchor scores 260 points — above the claimed 250 maximum and
different from the spec's clamped-elapsed formula, which yields 250. -/
theorem C4_counterexample :
    (lookupKV (submitGuess 0 "a" ⟨1, "Dynamite", 1000⟩ 1000
        (applyOps [Op.enqueue pA songDatabase, Op.enqueue pB songDatabase, Op.start 0 2000]
          gmInit)).2.matchesMap 0).map
      (fun m' => lookupKV m'.scores "a") = some (some 260) ∧
    specClampedPoints 1000 2000 15 = 250 ∧
    ¬ (260 : Int) ≤ 250 := by
  decide

/-! ### C5 -/

/-- A trace consisting only of enqueue operations, each with its shuffle
oracle, run from the fresh manager. -/
def enqueueTrace (steps : List (Player × List Round)) : GameManager :=
  steps.foldl (fun g s => (addPlayerToQueue s.1 s.2 g).2) gmInit

/-- The manager state produced by `createMatch` when the waiting list is
`p1 :: p2 :: rest` (named so that lemma statements stay one-line). -/
def pairedManager (sh : List Round) (gm : GameManager) (p1 p2 : Player)
    (rest : List Player) : GameManager :=
  { gm with
      waitingPlayers := rest
      matchesMap := setKV gm.matchesMap gm.nextMatchId (mkMatch sh gm.nextMatchId p1 p2)
      playerMatches := setKV (setKV gm.playerMatches p1.id gm.nextMatchId) p2.id gm.nextMatchId
      nextMatchId := gm.nextMatchId + 1 }

theorem createMatch_eq (sh : List Round) (gm : GameManager) (p1 p2 : Player)
    (rest : List Player) (hw : gm.waitingPlayers = p1 :: p2 :: rest) :
    createMatch sh gm = (gm.nextMatchId, pairedManager sh gm p1 p2 rest) := by
  unfold createMatch pairedManager
  rw [hw]

/-- Inserting a player by the queue's discipline (drop stale copies, then
append) preserves pairwise-distinct identifiers. -/
theorem insert_pairwise (l : List Player) (p : Player)
    (h : l.Pairwise (fun q q' => q.id ≠ q'.id)) :
    ((l.filter (fun q => q.id != p.id)) ++ [p]).Pairwise (fun q q' => q.id ≠ q'.id) := by
  rw [List.pairwise_append]
  refine ⟨h.filter _, List.pairwise_singleton _ _, ?_⟩
  intro a ha b hb
  rw [List.mem_singleton] at hb
  subst hb
  have := List.of_mem_filter ha
  simpa using this

/-- The queue invariant of C5: the waiting list holds pairwise-distinct
player identifiers and every registered match has two distinct players. -/
def QInv (gm : GameManager) : Prop :=
  gm.waitingPlayers.Pairwise (fun q q' => q.id ≠ q'.id) ∧
  ∀ mid m, lookupKV gm.matchesMap mid = some m → m.player1Id ≠ m.player2Id

theorem qinv_enqueue (gm : GameManager) (p : Player) (sh : List Round) (h : QInv gm) :
    QInv (addPlayerToQueue p sh gm).2 := by
  obtain ⟨h1, h2⟩ := h
  unfold addPlayerToQueue
  split
  · exact ⟨h1, h2⟩
  · dsimp only
    have hpw := insert_pairwise gm.waitingPlayers p h1
    split
    · rename_i hlen
      obtain ⟨p1, p2, rest, hl⟩ := exists_cons_cons_of_two_le hlen
      rw [createMatch_eq sh _ p1 p2 rest hl]
      dsimp only [pairedManager]
      have hpw' : (p1 :: p2 :: rest).Pairwise (fun q q' => q.id ≠ q'.id) := by
        rw [show (p1 :: p2 :: rest) = gm.waitingPlayers.filter (fun q => q.id != p.id) ++ [p]
          from hl.symm]
        exact hpw
      constructor
      · exact (List.pairwise_cons.mp (List.pairwise_cons.mp hpw').2).2
      · intro mid m hm
        by_cases hmid : mid = gm.nextMatchId
        · subst hmid
          rw [lookupKV_setKV_self] at hm
          cases hm
          exact (List.pairwise_cons.mp hpw').1 p2 (List.mem_cons_self _ _)
        · rw [lookupKV_setKV_ne _ _ _ _ hmid] at hm
          exact h2 mid m hm
    · exact ⟨hpw, h2⟩

theorem qinv_foldl (steps : List (Player × List Round)) (gm : GameManager) (h : QInv gm) :
    QInv (steps.foldl (fun g s => (addPlayerToQueue s.1 s.2 g).2) gm) := by
  induction steps generalizing gm with
  | nil => exact h
  | cons s rest ih => exact ih _ (qinv_enqueue gm s.1 s.2 h)

theorem qinv_init : QInv gmInit := by
  refine ⟨List.Pairwise.nil, fun mid m hm => ?_⟩
  simp [gmInit, lookupKV] at hm

/-- C5 (confirmed): along any sequence of enqueue operations no match ever
holds two identical player identifiers; moreover, whenever the insertion
of a player (into a duplicate-free waiting list) makes the list reach two
or more entries, the enqueue pairs exactly the two longest-waiting players
(the first two of the post-insertion list, strict FIFO), removes exactly
those two entries, and the two paired identifiers are distinct. -/
theorem C5_pairing :
    (∀ steps mid m, lookupKV (enqueueTrace steps).matchesMap mid = some m →
      m.player1Id ≠ m.player2Id) ∧
    (∀ gm p sh p1 p2 rest,
      gm.waitingPlayers.Pairwise (fun q q' => q.id ≠ q'.id) →
      lookupKV gm.playerMatches p.id = none →
      gm.waitingPlayers.filter (fun q => q.id != p.id) ++ [p] = p1 :: p2 :: rest →
      (addPlayerToQueue p sh gm).1 = some gm.nextMatchId ∧
      (addPlayerToQueue p sh gm).2.waitingPlayers = rest ∧
      lookupKV (addPlayerToQueue p sh gm).2.matchesMap gm.nextMatchId =
        some (mkMatch sh gm.nextMatchId p1 p2) ∧
      (mkMatch sh gm.nextMatchId p1 p2).player1Id = p1.id ∧
      (mkMatch sh gm.nextMatchId p1 p2).player2Id = p2.id ∧
      p1.id ≠ p2.id) := by
  constructor
  · intro steps mid m hm
    exact (qinv_foldl steps gmInit qinv_init).2 mid m hm
  · intro gm p sh p1 p2 rest hpw hpm hl
    have hins := insert_pairwise gm.waitingPlayers p hpw
    rw [hl] at hins
    have hne : p1.id ≠ p2.id := (List.pairwise_cons.mp hins).1 p2 (List.mem_cons_self _ _)
    unfold addPlayerToQueue
    rw [hpm]
    dsimp only [Option.isSome]
    rw [if_neg (by simp)]
    have hl' : ({ gm with waitingPlayers :=
        gm.waitingPlayers.filter (fun q => q.id != p.id) ++ [p] } :
        GameManager).waitingPlayers = p1 :: p2 :: rest := hl
    rw [if_pos (by rw [hl]; simp), createMatch_eq sh _ p1 p2 rest hl']
    exact ⟨rfl, rfl, lookupKV_setKV_self _ _ _, rfl, rfl, hne⟩

/-- Witness for C5: player b's enqueue while a is waiting pairs a with b
(in FIFO order), empties the waiting list, and the two identifiers
differ. -/
theorem C5_pairing_witness :
    (addPlayerToQueue pB songDatabase (applyOps [Op.enqueue pA songDatabase] gmInit)).1 =
      some 0 ∧
    (addPlayerToQueue pB songDatabase (applyOps [Op.enqueue pA songDatabase] gmInit)).2.waitingPlayers = [] ∧
    pA.id ≠ pB.id := by
  have h := C5_pairing.2 (applyOps [Op.enqueue pA songDatabase] gmInit) pB songDatabase
    pA pB [] (by simp [applyOps, applyOp, addPlayerToQueue, gmInit, lookupKV, createMatch])
    (by decide) (by decide)
  exact ⟨h.1, h.2.1, h.2.2.2.2.2⟩

/-! ### C6 -/

/-- C6 (amended): when neither player has answered, a synthetic submission
from a non-player identity with an empty answer string for the current
round, issued at or after the time limit, resolves the round without
granting points: the `RoundResult` carries the unchanged scores and an
answer map containing exactly the synthetic entry (not an empty map), and
the match advances (or finishes if it was the final round) with an empty
pending-answer map. -/
theorem C6_forced_timeout (gm : GameManager) (mid : Nat) (sid : String) (g : PlayerGuess)
    (now t : Int) (m : Match)
    (hl : lookupKV gm.matchesMap mid = some m)
    (hstate : m.state = .playing)
    (hrn : g.roundNumber = m.currentRound)
    (hempty : m.playerAnswers = [])
    (hg : g.guess = "")
    (hwrong : (m.rounds.getD (m.currentRound - 1) defaultRound).correctAnswer ≠ "")
    (ht : m.roundStartTime = some t) (ht0 : t ≠ 0)
    (htime : m.roundTimeLimit ≤ ((now : ℚ) - (t : ℚ)) / 1000) :
    ((submitGuess mid sid g now gm).1).map RoundResult.correctAnswer =
      some (m.rounds.getD (m.currentRound - 1) defaultRound).correctAnswer ∧
    ((submitGuess mid sid g now gm).1).map RoundResult.scores = some m.scores ∧
    ((submitGuess mid sid g now gm).1).map RoundResult.playerAnswers = some [(sid, "")] ∧
    ((submitGuess mid sid g now gm).1).map RoundResult.roundNumber = some m.currentRound ∧
    ∀ m', lookupKV (submitGuess mid sid g now gm).2.matchesMap mid = some m' →
      m'.scores = m.scores ∧ m'.playerAnswers = [] ∧
      (m.rounds.length ≤ m.currentRound →
        m'.state = .finished ∧ m'.currentRound = m.currentRound) ∧
      (m.currentRound < m.rounds.length →
        m'.state = .playing ∧ m'.currentRound = m.currentRound + 1 ∧
        m'.roundStartTime = none) := by
  have hguess' : g.guess ≠ ((recordAnswer sid g.guess m).rounds.getD
      ((recordAnswer sid g.guess m).currentRound - 1) defaultRound).correctAnswer := by
    rw [hg]
    exact fun h => hwrong h.symm
  have htu : isRoundTimeUp (recordAnswer sid g.guess m) now = true := by
    unfold isRoundTimeUp
    dsimp only [recordAnswer]
    rw [ht]
    dsimp only
    rw [if_neg ht0]
    exact decide_eq_true htime
  have hpa : (recordAnswer sid g.guess m).playerAnswers = [(sid, "")] := by
    dsimp only [recordAnswer]
    rw [hempty, hg]
    rfl
  unfold submitGuess
  rw [hl]
  dsimp only
  rw [if_neg (by simp [hstate, hrn]), applyScore_incorrect sid g _ hguess',
    if_pos (Or.inr htu : allAnswered (recordAnswer sid g.guess m) ∨
      isRoundTimeUp (recordAnswer sid g.guess m) now = true)]
  dsimp only
  rw [finishRound_fst]
  refine ⟨rfl, rfl, congrArg some hpa, rfl, fun m' hm' => ?_⟩
  rw [lookupKV_setKV_self] at hm'
  cases hm'
  refine ⟨?_, finishRound_playerAnswers _, fun hlast => ?_, fun hnl => ?_⟩
  · rw [finishRound_scores]
    rfl
  · have hlast' : (recordAnswer sid g.guess m).rounds.length ≤
        (recordAnswer sid g.guess m).currentRound := hlast
    rw [finishRound_snd_last _ hlast']
    exact ⟨rfl, rfl⟩
  · have hnl' : ¬ (recordAnswer sid g.guess m).rounds.length ≤
        (recordAnswer sid g.guess m).currentRound := not_le.mpr hnl
    rw [finishRound_snd_not_last _ hnl']
    exact ⟨hstate, rfl, rfl⟩

/-- Witness for C6: with neither player having answered round 1, the
forced submission from identity "system" at 17000 ms (time limit 15 s,
anchor 1000 ms) resolves the round with unchanged scores and the single
synthetic entry in the answer map. -/
theorem C6_forced_timeout_witness :
    ((submitGuess 0 "system" ⟨1, "", 0⟩ 17000 gmStarted).1).map RoundResult.playerAnswers =
      some [("system", "")] ∧
    ((submitGuess 0 "system" ⟨1, "", 0⟩ 17000 gmStarted).1).map RoundResult.scores =
      some mFirst.scores := by
  have h := C6_forced_timeout gmStarted 0 "system" ⟨1, "", 0⟩ 17000 1000 mFirst
    (by decide) (by decide) (by decide) (by decide) (by decide) (by decide)
    (by decide) (by decide) (by decide)
  exact ⟨h.2.2.1, h.2.1⟩

/-- Counterexample to C6 as stated: the forced-timeout `RoundResult`'s
answer map is not empty — it contains the synthetic non-player entry. -/
theorem C6_counterexample :
    ((submitGuess 0 "system" ⟨1, "", 0⟩ 17000 gmStarted).1).map RoundResult.playerAnswers =
      some [("system", "")] ∧
    ([("system", "")] : List (String × String)) ≠ [] := by
  decide

/-! ### C7 -/

/-- C7 (amended): `enqueue(playerId)` returns none and performs no state
change whenever the player maps to *any* match in the Registry — finished
or not.  (The source checks only `playerMatches.has(id)`, never the
match's state, so a player still mapped to a finished match is also
rejected; the claim's "exactly when … active (non-finished)" is false.) -/
theorem C7_enqueue_rejects_mapped (gm : GameManager) (p : Player) (sh : List Round)
    (h : (lookupKV gm.playerMatches p.id).isSome) :
    addPlayerToQueue p sh gm = (none, gm) := by
  unfold addPlayerToQueue
  rw [if_pos h]

/-- Witness for C7: re-enqueueing player a right after being paired is a
no-op returning none. -/
theorem C7_enqueue_rejects_mapped_witness :
    addPlayerToQueue pA songDatabase
        (applyOps [Op.enqueue pA songDatabase, Op.enqueue pB songDatabase] gmInit) =
      (none, applyOps [Op.enqueue pA songDatabase, Op.enqueue pB songDatabase] gmInit) :=
  C7_enqueue_rejects_mapped _ pA songDatabase (by decide)

/-- Counterexample to C7 as stated: after a's forfeit the match is
`finished`, yet b — mapped only to that finished match — is still
rejected with none and no state change, so rejection is not limited to
players in an *active* (non-finished) match. -/
theorem C7_counterexample :
    lookupKV gmForfeited.playerMatches "b" = some 0 ∧
    (lookupKV gmForfeited.matchesMap 0).map Match.state = some .finished ∧
    addPlayerToQueue pB songDatabase gmForfeited = (none, gmForfeited) := by
  decide

/-! ### C8 -/

/-- C8 (amended): `createMatch` registers both player→match mappings
unconditionally, overwriting any existing mapping; it performs no
re-validation and can never fail with `AlreadyMatched` — only the Queue's
`playerMatches.has` check excludes double-matching. -/
theorem C8_createMatch_no_validation (gm : GameManager) (sh : List Round)
    (p1 p2 : Player) (rest : List Player) (hw : gm.waitingPlayers = p1 :: p2 :: rest) :
    (createMatch sh gm).1 = gm.nextMatchId ∧
    lookupKV (createMatch sh gm).2.playerMatches p1.id = some gm.nextMatchId ∧
    lookupKV (createMatch sh gm).2.playerMatches p2.id = some gm.nextMatchId ∧
    lookupKV (createMatch sh gm).2.matchesMap gm.nextMatchId =
      some (mkMatch sh gm.nextMatchId p1 p2) ∧
    (createMatch sh gm).2.waitingPlayers = rest := by
  rw [createMatch_eq sh gm p1 p2 rest hw]
  dsimp only [pairedManager]
  refine ⟨rfl, ?_, lookupKV_setKV_self _ _ _, lookupKV_setKV_self _ _ _, rfl⟩
  by_cases h : p1.id = p2.id
  · rw [h, lookupKV_setKV_self]
  · rw [lookupKV_setKV_ne _ _ _ _ h, lookupKV_setKV_self]

/-- The fresh manager with a and b waiting, used by the C8 witness. -/
def gmTwoWaiting : GameManager := { gmInit with waitingPlayers := [pA, pB] }

/-- Witness for C8: with a and b waiting, `createMatch` hands out match 0
and maps both players to it. -/
theorem C8_createMatch_no_validation_witness :
    (createMatch songDatabase gmTwoWaiting).1 = 0 ∧
    lookupKV (createMatch songDatabase gmTwoWaiting).2.playerMatches "a" = some 0 ∧
    lookupKV (createMatch songDatabase gmTwoWaiting).2.playerMatches "b" = some 0 := by
  have h := C8_createMatch_no_validation gmTwoWaiting songDatabase pA pB [] rfl
  exact ⟨h.1, h.2.1, h.2.2.1⟩

/-- A playing match between a and a third player c, used to pre-populate
the registry for the C8 counterexample. -/
def pC : Player := { id := "c", name := "Cara", socketId := "sockC" }

/-- A manager state in which player a is already mapped to the
non-finished match 7 while also standing first in the waiting list. -/
def gmPremapped : GameManager :=
  { matchesMap := [(7, { mkMatch songDatabase 7 pA pC with state := .playing })]
    waitingPlayers := [pA, pB]
    playerMatches := [("a", 7)]
    nextMatchId := 8 }

/-- Counterexample to C8 as stated: even though player a is already mapped
to the non-finished match 7, `createMatch` does not fail with
`AlreadyMatched` — it succeeds, mints match 8 and silently overwrites a's
mapping. -/
theorem C8_counterexample :
    lookupKV gmPremapped.playerMatches "a" = some 7 ∧
    (lookupKV gmPremapped.matchesMap 7).map Match.state = some .playing ∧
    (createMatch songDatabase gmPremapped).1 = 8 ∧
    lookupKV (createMatch songDatabase gmPremapped).2.playerMatches "a" = some 8 ∧
    lookupKV (createMatch songDatabase gmPremapped).2.matchesMap 8 =
      some (mkMatch songDatabase 8 pA pB) := by
  decide

/-! ### C9 -/

theorem expired_iff (now : Int) (m : Match) :
    expired now m = true ↔ m.state = .finished ∧ m.roundStartTime.getD 0 < now - 3600000 := by
  simp [expired]

theorem sweep_deleted (gm : GameManager) (now : Int) (mid : Nat) (m : Match)
    (hmem : (mid, m) ∈ gm.matchesMap) (hexp : expired now m = true) :
    (mid, m) ∉ (cleanupFinishedMatches now gm).matchesMap ∧
    lookupKV (cleanupFinishedMatches now gm).playerMatches m.player1Id = none ∧
    lookupKV (cleanupFinishedMatches now gm).playerMatches m.player2Id = none := by
  have hp1 : m.player1Id ∈ (gm.matchesMap.filter (fun p => expired now p.2)).flatMap
      (fun p => [p.2.player1Id, p.2.player2Id]) := by
    rw [List.mem_flatMap]
    exact ⟨(mid, m), List.mem_filter.mpr ⟨hmem, hexp⟩, by simp⟩
  have hp2 : m.player2Id ∈ (gm.matchesMap.filter (fun p => expired now p.2)).flatMap
      (fun p => [p.2.player1Id, p.2.player2Id]) := by
    rw [List.mem_flatMap]
    exact ⟨(mid, m), List.mem_filter.mpr ⟨hmem, hexp⟩, by simp⟩
  unfold cleanupFinishedMatches
  dsimp only
  refine ⟨?_, ?_, ?_⟩
  · intro hmem'
    rw [List.mem_filter] at hmem'
    rw [hexp] at hmem'
    exact absurd hmem'.2 (by simp)
  · exact lookupKV_filter_none _ _ _ (fun v => by simpa using hp1)
  · exact lookupKV_filter_none _ _ _ (fun v => by simpa using hp2)

theorem sweep_kept (gm : GameManager) (now : Int) (mid : Nat) (m : Match)
    (hmem : (mid, m) ∈ gm.matchesMap) (hexp : expired now m = false) :
    (mid, m) ∈ (cleanupFinishedMatches now gm).matchesMap := by
  unfold cleanupFinishedMatches
  dsimp only
  exact List.mem_filter.mpr ⟨hmem, by simp [hexp]⟩

/-- C9 (confirmed): for any sweep at a plausible wall-clock time
(`now` past the one-hour retention window measured from epoch), every
`finished` match whose recorded anchor is older than the window — and
every finished match with no recorded anchor at all, immediately — is
deleted together with both of its players' mappings, while non-finished
matches and finished matches younger than the window are left in place. -/
theorem C9_sweep (gm : GameManager) (now : Int) (hnow : 3600000 < now) :
    ∀ mid m, (mid, m) ∈ gm.matchesMap →
      (m.state = .finished → m.roundStartTime = none →
        (mid, m) ∉ (cleanupFinishedMatches now gm).matchesMap ∧
        lookupKV (cleanupFinishedMatches now gm).playerMatches m.player1Id = none ∧
        lookupKV (cleanupFinishedMatches now gm).playerMatches m.player2Id = none) ∧
      (∀ t, m.state = .finished → m.roundStartTime = some t → t < now - 3600000 →
        (mid, m) ∉ (cleanupFinishedMatches now gm).matchesMap ∧
        lookupKV (cleanupFinishedMatches now gm).playerMatches m.player1Id = none ∧
        lookupKV (cleanupFinishedMatches now gm).playerMatches m.player2Id = none) ∧
      (m.state ≠ .finished → (mid, m) ∈ (cleanupFinishedMatches now gm).matchesMap) ∧
      (∀ t, m.state = .finished → m.roundStartTime = some t → now - 3600000 ≤ t →
        (mid, m) ∈ (cleanupFinishedMatches now gm).matchesMap) := by
  intro mid m hmem
  refine ⟨fun hfin hanchor => ?_, fun t hfin hanchor hold => ?_, fun hnf => ?_,
    fun t hfin hanchor hyoung => ?_⟩
  · refine sweep_deleted gm now mid m hmem (expired_iff now m |>.mpr ⟨hfin, ?_⟩)
    rw [hanchor]
    simpa using (by omega : (0 : Int) < now - 3600000)
  · refine sweep_deleted gm now mid m hmem (expired_iff now m |>.mpr ⟨hfin, ?_⟩)
    rw [hanchor]
    simpa using hold
  · refine sweep_kept gm now mid m hmem ?_
    rw [Bool.eq_false_iff]
    intro h
    exact hnf ((expired_iff now m).mp h).1
  · refine sweep_kept gm now mid m hmem ?_
    rw [Bool.eq_false_iff]
    intro h
    have := ((expired_iff now m).mp h).2
    rw [hanchor] at this
    simp at this
    omega

/-- The forfeited match as stored in `gmForfeited`. -/
def mForf : Match := { mFirst with state := .finished }

/-- Witness for C9: sweeping one hour (plus ε) after the epoch-anchored
finished match removes it and both player mappings. -/
theorem C9_sweep_witness :
    (0, mForf) ∉ (cleanupFinishedMatches 7200000 gmForfeited).matchesMap ∧
    lookupKV (cleanupFinishedMatches 7200000 gmForfeited).playerMatches "a" = none ∧
    lookupKV (cleanupFinishedMatches 7200000 gmForfeited).playerMatches "b" = none :=
  (C9_sweep gmForfeited 7200000 (by decide) 0 mForf (by decide)).2.1 1000
    (by decide) (by decide) (by decide)

/-! ### C10 -/

/-- C10 (confirmed): `submitAnswer` is not idempotent for a scoring
submission.  In the started match, player a's correct answer at elapsed 0
adds 250 points without resolving the round (b has not answered, time is
not up), and an identical second submission adds another 250, leaving a
with 500 points from a single round — above the 250-point per-round
maximum. -/
theorem C10_double_scoring :
    (submitGuess 0 "a" ⟨1, "Dynamite", 1000⟩ 1000 gmStarted).1 = none ∧
    (lookupKV (submitGuess 0 "a" ⟨1, "Dynamite", 1000⟩ 1000 gmStarted).2.matchesMap 0).map
      (fun m => lookupKV m.scores "a") = some (some 250) ∧
    (submitGuess 0 "a" ⟨1, "Dynamite", 1000⟩ 1000
      (submitGuess 0 "a" ⟨1, "Dynamite", 1000⟩ 1000 gmStarted).2).1 = none ∧
    (lookupKV (submitGuess 0 "a" ⟨1, "Dynamite", 1000⟩ 1000
        (submitGuess 0 "a" ⟨1, "Dynamite", 1000⟩ 1000 gmStarted).2).2.matchesMap 0).map
      (fun m => lookupKV m.scores "a") = some (some 500) ∧
    (250 : Int) < 500 := by
  decide

end KpopDuel
